import Mathlib

/-!
Verification of the spark event-bus core (`src/spark/event.py` and
`src/spark/interfaces.py`), shallowly embedded in Lean.

Modelling conventions:
* attribute values, event classes, handler callbacks and bus references are
  compared only for identity in the source, so each is modelled by a numeric
  identifier;
* a Python dict is modelled by an association list whose keys are distinct,
  with `dlookup` / `dset` / `ddel` for item access, assignment and deletion;
* the zope checks `IEvent.implementedBy(klass)` and `IEvent.providedBy(event)`
  are external structural checks, modelled by a boolean oracle on classes and
  a boolean field of the event instance respectively;
* raised exceptions become `Except.error` carrying the raised message;
* `publish` invokes callbacks and recursively publishes on follower buses;
  its observable behaviour is returned as the ordered trace of those calls.
-/

namespace Spark

/-- Attribute values carried by event instances. -/
abbrev Value := Nat

/-- Identity of a Python class (event type). -/
abbrev PyClass := Nat

/-- Identity of a handler callback. -/
abbrev Handler := Nat

/-- Identity of an `EventBus` instance used as a follower reference. -/
abbrev BusId := Nat

/-- Python dict lookup `d[key]` on the association-list model: value of the
first entry with the given key. -/
def dlookup {α β : Type} [DecidableEq α] : List (α × β) → α → Option β
  | [], _ => none
  | (k, v) :: rest, key => if k = key then some v else dlookup rest key

/-- Python dict assignment `d[key] = val`: replaces the value of the first
entry with the key, appends a new entry when the key is absent. -/
def dset {α β : Type} [DecidableEq α] : List (α × β) → α → β → List (α × β)
  | [], key, val => [(key, val)]
  | (k, v) :: rest, key, val =>
      if k = key then (k, val) :: rest else (k, v) :: dset rest key val

/-- Python dict deletion `del d[key]`. -/
def ddel {α β : Type} [DecidableEq α] (d : List (α × β)) (key : α) :
    List (α × β) :=
  d.filter (fun kv => decide (kv.1 ≠ key))

theorem dlookup_dset_self {α β : Type} [DecidableEq α]
    (d : List (α × β)) (k : α) (v : β) :
    dlookup (dset d k v) k = some v := by
  induction d with
  | nil => simp [dset, dlookup]
  | cons p rest ih =>
      obtain ⟨a, b⟩ := p
      by_cases h : a = k
      · subst h
        simp [dset, dlookup]
      · simp [dset, dlookup, h, ih]

theorem dlookup_dset_ne {α β : Type} [DecidableEq α]
    (d : List (α × β)) (k k' : α) (v : β) (h : k' ≠ k) :
    dlookup (dset d k v) k' = dlookup d k' := by
  induction d with
  | nil => simp [dset, dlookup, Ne.symm h]
  | cons p rest ih =>
      obtain ⟨a, b⟩ := p
      by_cases hak : a = k
      · subst hak
        simp [dset, dlookup, Ne.symm h]
      · simp [dset, dlookup, hak, ih]

theorem mem_dset {α β : Type} [DecidableEq α]
    (d : List (α × β)) (k : α) (v : β) (p : α × β)
    (hp : p ∈ dset d k v) : p = (k, v) ∨ p ∈ d := by
  induction d with
  | nil =>
      simp [dset] at hp
      exact Or.inl hp
  | cons q rest ih =>
      obtain ⟨a, b⟩ := q
      by_cases hak : a = k
      · subst hak
        simp [dset] at hp
        rcases hp with h1 | h1
        · exact Or.inl h1
        · exact Or.inr (List.mem_cons_of_mem _ h1)
      · simp [dset, hak] at hp
        rcases hp with h1 | h1
        · exact Or.inr (by simp [h1])
        · rcases ih h1 with h2 | h2
          · exact Or.inl h2
          · exact Or.inr (List.mem_cons_of_mem _ h2)

theorem dset_eq_self {α β : Type} [DecidableEq α]
    (d : List (α × β)) (k : α) (v : β) (h : dlookup d k = some v) :
    dset d k v = d := by
  induction d with
  | nil => simp [dlookup] at h
  | cons q rest ih =>
      obtain ⟨a, b⟩ := q
      by_cases hak : a = k
      · subst hak
        simp [dlookup] at h
        simp [dset, h]
      · simp [dlookup, hak] at h
        simp [dset, hak, ih h]

theorem map_fst_dset {α β : Type} [DecidableEq α]
    (d : List (α × β)) (k : α) (v : β) (h : (dlookup d k).isSome) :
    (dset d k v).map Prod.fst = d.map Prod.fst := by
  induction d with
  | nil => simp [dlookup] at h
  | cons q rest ih =>
      obtain ⟨a, b⟩ := q
      by_cases hak : a = k
      · subst hak
        simp [dset]
      · simp [dlookup, hak] at h
        simp [dset, hak, ih h]

theorem dset_of_lookup_none {α β : Type} [DecidableEq α]
    (d : List (α × β)) (k : α) (v : β) (h : dlookup d k = none) :
    dset d k v = d ++ [(k, v)] := by
  induction d with
  | nil => simp [dset]
  | cons q rest ih =>
      obtain ⟨a, b⟩ := q
      by_cases hak : a = k
      · subst hak
        simp [dlookup] at h
      · simp [dlookup, hak] at h
        simp [dset, hak, ih h]

theorem dlookup_append {α β : Type} [DecidableEq α]
    (d1 d2 : List (α × β)) (k : α) (h : dlookup d1 k = none) :
    dlookup (d1 ++ d2) k = dlookup d2 k := by
  induction d1 with
  | nil => simp
  | cons q rest ih =>
      obtain ⟨a, b⟩ := q
      by_cases hak : a = k
      · subst hak
        simp [dlookup] at h
      · simp [dlookup, hak] at h ⊢
        exact ih h

theorem dlookup_eq_none {α β : Type} [DecidableEq α]
    (d : List (α × β)) (k : α) :
    dlookup d k = none ↔ k ∉ d.map Prod.fst := by
  induction d with
  | nil => simp [dlookup]
  | cons q rest ih =>
      obtain ⟨a, b⟩ := q
      by_cases hak : a = k
      · subst hak
        simp [dlookup]
      · simp [dlookup, hak, ih, Ne.symm hak]

theorem dlookup_mem {α β : Type} [DecidableEq α]
    (d : List (α × β)) (k : α) (v : β) (h : dlookup d k = some v) :
    (k, v) ∈ d := by
  induction d with
  | nil => simp [dlookup] at h
  | cons q rest ih =>
      obtain ⟨a, b⟩ := q
      by_cases hak : a = k
      · subst hak
        simp [dlookup] at h
        simp [h]
      · simp [dlookup, hak] at h
        exact List.mem_cons_of_mem _ (ih h)

theorem mem_ddel {α β : Type} [DecidableEq α]
    (d : List (α × β)) (k : α) (p : α × β) :
    p ∈ ddel d k ↔ p ∈ d ∧ p.1 ≠ k := by
  simp [ddel, List.mem_filter]

theorem map_fst_ddel_sublist {α β : Type} [DecidableEq α]
    (d : List (α × β)) (k : α) :
    ((ddel d k).map Prod.fst).Sublist (d.map Prod.fst) :=
  List.Sublist.map Prod.fst (List.filter_sublist d)

theorem dlookup_foldl_dset_not_mem {α β : Type} [DecidableEq α]
    (kwargs : List (α × β)) (init : List (α × β)) (k : α)
    (h : k ∉ kwargs.map Prod.fst) :
    dlookup (kwargs.foldl (fun attrs kv => dset attrs kv.1 kv.2) init) k =
      dlookup init k := by
  induction kwargs generalizing init with
  | nil => rfl
  | cons q rest ih =>
      obtain ⟨a, b⟩ := q
      simp only [List.map_cons, List.mem_cons, not_or] at h
      rw [List.foldl_cons, ih _ h.2]
      exact dlookup_dset_ne init a k b h.1

theorem dlookup_foldl_dset_mem {α β : Type} [DecidableEq α]
    (kwargs : List (α × β)) (init : List (α × β)) (k : α) (v : β)
    (hnd : (kwargs.map Prod.fst).Nodup) (hmem : (k, v) ∈ kwargs) :
    dlookup (kwargs.foldl (fun attrs kv => dset attrs kv.1 kv.2) init) k =
      some v := by
  induction kwargs generalizing init with
  | nil => simp at hmem
  | cons q rest ih =>
      obtain ⟨a, b⟩ := q
      simp only [List.map_cons, List.nodup_cons] at hnd
      rw [List.foldl_cons]
      rcases List.mem_cons.mp hmem with he | hm
      · obtain ⟨hk, hv⟩ := Prod.mk.injEq .. ▸ he
        subst hk
        subst hv
        rw [dlookup_foldl_dset_not_mem rest _ k hnd.1]
        exact dlookup_dset_self init k v
      · exact ih (dset init a b) hnd.2 hm

/-! ## The notification data model (`BaseEvent`, `src/spark/event.py` 58-69) -/

/-- `BaseEvent.__init__(self, source, **kwargs)`: the instance is modelled by
its attribute dict.  The body first sets `self.source = source`, then runs
`setattr(self, key, value)` for every keyword argument in iteration order. -/
def mkBaseEvent (src : Value) (kwargs : List (String × Value)) :
    List (String × Value) :=
  kwargs.foldl (fun attrs kv => dset attrs kv.1 kv.2) [("source", src)]

/-! ## The hub data model (`EventBus`, `src/spark/event.py` 78-301) -/

/-- `EventBus.__init__` state: `subscribers` is the dispatch dict from an
event class to the ordered list of subscribed callbacks, `followers` the
ordered list of connected buses (lines 188-193). -/
structure EventBus where
  subscribers : List (PyClass × List Handler)
  followers : List BusId
  deriving DecidableEq, Repr

/-- A freshly initialised bus: both collections are empty. -/
def EventBus.init : EventBus := ⟨[], []⟩

/-- An event instance as the bus observes it: its concrete class
(`type(event)`) and the result of the zope runtime check
`IEvent.providedBy(event)` on it. -/
structure Event where
  cls : PyClass
  providesIEvent : Bool
  deriving DecidableEq, Repr

/-- Message of the `BusError` raised by `subscribe` (line 206). -/
def invalidSubscriptionMsg : String :=
  "Invalid subscription, klass should implenent IEvent"

/-- Message of the `BusError` raised by `unsubscribe` (line 225). -/
def invalidUnsubscriptionMsg : String :=
  "Invalid unsubscription, klass should implenent IEvent"

/-- Message of the `BusError` raised by `publish` (line 292). -/
def invalidPublishMsg : String :=
  "Invalid dispatching, event should provide IEvent"

/-- Message of the `ValueError` raised by `list.remove` inside
`disconnect` (line 265) when the bus is not a follower.  The spec names this
failure `FollowerNotFound`. -/
def followerNotFoundMsg : String :=
  "ValueError: list.remove(x): x not in list"

/-- `EventBus.subscribe(klass, callback)` (lines 195-212): raises unless
`IEvent.implementedBy(klass)` (the oracle `impl`); otherwise creates the
class entry when absent and appends the callback unless already present.
The source's `self.subscribers[klass] = []` followed by the guarded append
collapses to appending the entry `(klass, [callback])`, since the callback
is never a member of the fresh empty list. -/
def EventBus.subscribe (impl : PyClass → Bool) (bus : EventBus)
    (klass : PyClass) (callback : Handler) : Except String EventBus :=
  if ¬ impl klass then .error invalidSubscriptionMsg
  else
    match dlookup bus.subscribers klass with
    | none =>
        .ok { bus with subscribers := bus.subscribers ++ [(klass, [callback])] }
    | some lst =>
        if callback ∈ lst then .ok bus
        else
          .ok { bus with
                  subscribers := dset bus.subscribers klass (lst ++ [callback]) }

/-- `EventBus.unsubscribe(klass, callback)` (lines 214-234): raises unless
`IEvent.implementedBy(klass)`; otherwise removes the callback's first
occurrence when the class has an entry containing it (`list.remove`), and
deletes the class entry when its list becomes empty. -/
def EventBus.unsubscribe (impl : PyClass → Bool) (bus : EventBus)
    (klass : PyClass) (callback : Handler) : Except String EventBus :=
  if ¬ impl klass then .error invalidUnsubscriptionMsg
  else
    match dlookup bus.subscribers klass with
    | none => .ok bus
    | some lst =>
        let lst' := if callback ∈ lst then lst.erase callback else lst
        let d := dset bus.subscribers klass lst'
        if lst'.length = 0 then .ok { bus with subscribers := ddel d klass }
        else .ok { bus with subscribers := d }

/-- `EventBus.unsubscribe_all()` (lines 236-241). -/
def EventBus.unsubscribe_all (bus : EventBus) : EventBus :=
  { bus with subscribers := [] }

/-- `EventBus.has_subscribed(klass, callback)` (lines 243-252):
`klass in self.subscribers and callback in self.subscribers[klass]`.
No contract check and no mutation. -/
def EventBus.has_subscribed (bus : EventBus) (klass : PyClass)
    (callback : Handler) : Bool :=
  match dlookup bus.subscribers klass with
  | none => false
  | some lst => decide (callback ∈ lst)

/-- `EventBus.connect(bus)` (lines 254-259): `self.followers.append(bus)`,
with no duplicate or cycle check. -/
def EventBus.connect (bus : EventBus) (b : BusId) : EventBus :=
  { bus with followers := bus.followers ++ [b] }

/-- `EventBus.disconnect(bus)` (lines 261-265): `self.followers.remove(bus)`
removes the first occurrence, raising `ValueError` when absent. -/
def EventBus.disconnect (bus : EventBus) (b : BusId) : Except String EventBus :=
  if b ∈ bus.followers then
    .ok { bus with followers := bus.followers.erase b }
  else .error followerNotFoundMsg

/-- `EventBus.is_connected(bus)` (lines 267-271): `bus in self.followers`.
No contract check and no mutation. -/
def EventBus.is_connected (bus : EventBus) (b : BusId) : Bool :=
  decide (b ∈ bus.followers)

/-- `EventBus.disconnect_all()` (lines 273-278). -/
def EventBus.disconnect_all (bus : EventBus) : EventBus :=
  { bus with followers := [] }

/-- `EventBus.clear()` (lines 280-285): `unsubscribe_all` then
`disconnect_all`. -/
def EventBus.clear (bus : EventBus) : EventBus :=
  bus.unsubscribe_all.disconnect_all

/-- One observable step performed by `publish`: invoking a local callback
with the event, or recursively calling `publish` on a follower bus. -/
inductive Action where
  | callHandler (h : Handler)
  | forwardTo (b : BusId)
  deriving DecidableEq, Repr

/-- `EventBus.publish(event)` (lines 287-301): raises unless
`IEvent.providedBy(event)`; otherwise calls every callback registered under
the event's exact concrete class `type(event)` in list order, then calls
`publish` on every follower in list order.  The method assigns to neither
`self.subscribers` nor `self.followers`, so the returned state is the input
state; the calls it performs are returned as the ordered action trace. -/
def EventBus.publish (bus : EventBus) (ev : Event) :
    Except String (EventBus × List Action) :=
  if ¬ ev.providesIEvent then .error invalidPublishMsg
  else
    let localActs :=
      match dlookup bus.subscribers ev.cls with
      | none => []
      | some lst => lst.map Action.callHandler
    .ok (bus, localActs ++ bus.followers.map Action.forwardTo)

/-- The callback list currently registered for a class: the dict entry, or
empty when the class has no entry. -/
def EventBus.handlersFor (bus : EventBus) (k : PyClass) : List Handler :=
  (dlookup bus.subscribers k).getD []

/-- The dispatch-table invariant: dict keys are distinct (a dict property),
every registered callback list is duplicate-free, and every entry present in
the table has a non-empty callback list (so the table's keys are exactly the
classes with at least one live handler). -/
def Inv (bus : EventBus) : Prop :=
  (bus.subscribers.map Prod.fst).Nodup ∧
  ∀ p ∈ bus.subscribers, p.2.Nodup ∧ p.2 ≠ []

instance (bus : EventBus) : Decidable (Inv bus) := by
  unfold Inv
  infer_instance

/-! ## General lemmas about the operations -/

/-- Normal form of a successful `publish`: the state is returned unchanged
and the trace is the local callback invocations followed by the follower
forwards. -/
theorem publish_ok_eq (bus : EventBus) (ev : Event)
    (h : ev.providesIEvent = true) :
    bus.publish ev =
      .ok (bus, (bus.handlersFor ev.cls).map Action.callHandler ++
                bus.followers.map Action.forwardTo) := by
  unfold EventBus.publish EventBus.handlersFor
  rcases hl : dlookup bus.subscribers ev.cls with _ | lst <;> simp [h, hl]

/-- A `publish` of a non-conforming instance raises before doing anything. -/
theorem publish_invalid_eq (bus : EventBus) (ev : Event)
    (h : ev.providesIEvent = false) :
    bus.publish ev = .error invalidPublishMsg := by
  unfold EventBus.publish
  simp [h]

/-! ## Claims -/

/-- Claim C1: for every hub state and every notification instance satisfying
the contract, `publish` invokes exactly the callbacks currently registered
for the notification's exact concrete type, and no callback registered for
any other type (in particular any supertype, since the quantifier ranges
over every class distinct from `type(event)`) is invoked, unless that same
callback is also registered for the exact type. -/
theorem publish_exact_type_dispatch (bus : EventBus) (ev : Event)
    (h : ev.providesIEvent = true) :
    bus.publish ev =
      .ok (bus, (bus.handlersFor ev.cls).map Action.callHandler ++
                bus.followers.map Action.forwardTo) ∧
    ∀ k, k ≠ ev.cls → ∀ hd ∈ bus.handlersFor k,
      hd ∉ bus.handlersFor ev.cls →
      ∀ st acts, bus.publish ev = .ok (st, acts) →
        Action.callHandler hd ∉ acts := by
  refine ⟨publish_ok_eq bus ev h, ?_⟩
  intro k hk hd hmem hnot st acts hpub
  rw [publish_ok_eq bus ev h] at hpub
  injection hpub with hpair
  injection hpair with hst hacts
  subst hacts
  intro hmemacts
  rcases List.mem_append.mp hmemacts with hin | hin
  · rcases List.mem_map.mp hin with ⟨x, hx, hxe⟩
    injection hxe with hxh
    subst hxh
    exact hnot hx
  · rcases List.mem_map.mp hin with ⟨x, hx, hxe⟩
    exact Action.noConfusion hxe

/-- Closed instance of C1: a bus with callback 7 registered for class 5 and
follower 3, publishing an instance of class 5. -/
theorem publish_exact_type_dispatch_witness :
    (EventBus.mk [(5, [7])] [3]).publish ⟨5, true⟩ =
      .ok (EventBus.mk [(5, [7])] [3],
           [Action.callHandler 7, Action.forwardTo 3]) := by
  have h :=
    (publish_exact_type_dispatch (EventBus.mk [(5, [7])] [3]) ⟨5, true⟩ rfl).1
  simpa [EventBus.handlersFor, dlookup] using h

/-- Claim C2: for every hub and valid notification, `publish` performs all
local callback invocations first and only then forwards to every follower in
follower-list order; `connect` appends with no duplicate check, so a bus
connected twice as a follower is forwarded the notification twice per
publish. -/
theorem publish_local_then_followers (bus : EventBus) (ev : Event) (b : BusId)
    (h : ev.providesIEvent = true) :
    bus.publish ev =
      .ok (bus, (bus.handlersFor ev.cls).map Action.callHandler ++
                bus.followers.map Action.forwardTo) ∧
    (bus.connect b).followers = bus.followers ++ [b] ∧
    ∀ st acts, ((bus.connect b).connect b).publish ev = .ok (st, acts) →
      acts.count (Action.forwardTo b) = bus.followers.count b + 2 := by
  refine ⟨publish_ok_eq bus ev h, rfl, ?_⟩
  intro st acts hpub
  rw [publish_ok_eq _ ev h] at hpub
  injection hpub with hpair
  injection hpair with hst hacts
  subst hacts
  rw [List.count_append]
  have hinj : Function.Injective Action.forwardTo := by
    intro a1 a2 he
    injection he
  have h0 : (((((bus.connect b).connect b).handlersFor ev.cls).map
      Action.callHandler).count (Action.forwardTo b)) = 0 := by
    rw [List.count_eq_zero]
    intro ha
    rcases List.mem_map.mp ha with ⟨x, hx, hxe⟩
    exact Action.noConfusion hxe
  rw [h0, List.count_map_of_injective _ _ hinj, Nat.zero_add]
  show ((bus.followers ++ [b]) ++ [b]).count b = bus.followers.count b + 2
  simp [List.count_append]

/-- Closed instance of C2: a bus with follower 4 connected twice more is
forwarded the notification three times. -/
theorem publish_local_then_followers_witness :
    [Action.forwardTo 4, Action.forwardTo 4, Action.forwardTo 4].count
        (Action.forwardTo 4) = [4].count 4 + 2 :=
  (publish_local_then_followers (EventBus.mk [] [4]) ⟨0, true⟩ 4 rfl).2.2
    (EventBus.mk [] [4, 4, 4])
    [Action.forwardTo 4, Action.forwardTo 4, Action.forwardTo 4] rfl

/-- Claim C3: `publish` on a notification instance failing the capability
contract raises `BusError` with the invalid-dispatch message; no success
value is produced, so no callback is invoked, no follower is forwarded to,
and no changed state is returned. -/
theorem publish_invalid_event_rejected (bus : EventBus) (ev : Event)
    (h : ev.providesIEvent = false) :
    bus.publish ev = .error invalidPublishMsg ∧
    ∀ st acts, bus.publish ev ≠ .ok (st, acts) := by
  have herr : bus.publish ev = .error invalidPublishMsg :=
    publish_invalid_eq bus ev h
  refine ⟨herr, ?_⟩
  intro st acts hc
  rw [herr] at hc
  exact Except.noConfusion hc

/-- Closed instance of C3: publishing a non-conforming instance on a
populated bus raises. -/
theorem publish_invalid_event_rejected_witness :
    (EventBus.mk [(5, [7])] [3]).publish ⟨5, false⟩ =
      .error invalidPublishMsg :=
  (publish_invalid_event_rejected (EventBus.mk [(5, [7])] [3])
    ⟨5, false⟩ rfl).1

/-- Claim C7: `disconnect` removes exactly the first occurrence of the bus
from the followers list when present, and raises the not-found error leaving
the state unchanged (no success value) when absent. -/
theorem disconnect_first_occurrence (bus : EventBus) (b : BusId) :
    (b ∈ bus.followers →
      ∃ l1 l2, b ∉ l1 ∧ bus.followers = l1 ++ b :: l2 ∧
        bus.disconnect b = .ok { bus with followers := l1 ++ l2 }) ∧
    (b ∉ bus.followers → bus.disconnect b = .error followerNotFoundMsg) := by
  constructor
  · intro hmem
    obtain ⟨l1, l2, hnotin, heq, herase⟩ := List.exists_erase_eq hmem
    refine ⟨l1, l2, hnotin, heq, ?_⟩
    unfold EventBus.disconnect
    simp [hmem, herase]
  · intro hmem
    unfold EventBus.disconnect
    simp [hmem]

/-- Closed instance of C7: disconnecting a non-follower raises, and
disconnecting a present follower removes its first occurrence. -/
theorem disconnect_first_occurrence_witness :
    (EventBus.mk [] [9]).disconnect 4 = .error followerNotFoundMsg :=
  (disconnect_first_occurrence (EventBus.mk [] [9]) 4).2 (by decide)

/-- Claim C9: the queries `has_subscribed` and `is_connected` take no
contract oracle, are total Lean functions on every class and handler (so
they never raise and mutate nothing), and return `false` whenever the pair
or bus is not currently registered. -/
theorem queries_are_total (bus : EventBus) (k : PyClass) (cb : Handler)
    (b : BusId) :
    (bus.has_subscribed k cb = true ↔
      ∃ lst, dlookup bus.subscribers k = some lst ∧ cb ∈ lst) ∧
    (bus.is_connected b = true ↔ b ∈ bus.followers) ∧
    (dlookup bus.subscribers k = none → bus.has_subscribed k cb = false) ∧
    (b ∉ bus.followers → bus.is_connected b = false) := by
  refine ⟨?_, ?_, ?_, ?_⟩
  · unfold EventBus.has_subscribed
    rcases hl : dlookup bus.subscribers k with _ | lst <;> simp [hl]
  · unfold EventBus.is_connected
    simp
  · intro h
    unfold EventBus.has_subscribed
    simp [h]
  · intro h
    unfold EventBus.is_connected
    simp [h]

/-- Closed instance of C9: on a bus with no entry for class 0 and no
follower 0, both queries answer `false`. -/
theorem queries_are_total_witness :
    (EventBus.mk [] []).has_subscribed 0 0 = false ∧
    (EventBus.mk [] []).is_connected 0 = false :=
  ⟨(queries_are_total (EventBus.mk [] []) 0 0 0).2.2.1 (by decide),
   (queries_are_total (EventBus.mk [] []) 0 0 0).2.2.2 (by decide)⟩

/-- Claim C4: `subscribe` and `unsubscribe` raise the invalid-subscription
`BusError` exactly when the class fails the capability contract, producing
no success state; when the class passes the contract they always succeed,
and `unsubscribe` on a pair that is not currently registered returns the
state unchanged (given the dispatch-table invariant of reachable states). -/
theorem subscription_contract_errors (impl : PyClass → Bool) (bus : EventBus)
    (k : PyClass) (cb : Handler) :
    (impl k = false →
      bus.subscribe impl k cb = .error invalidSubscriptionMsg ∧
      bus.unsubscribe impl k cb = .error invalidUnsubscriptionMsg) ∧
    (impl k = true →
      (∃ b1, bus.subscribe impl k cb = .ok b1) ∧
      (∃ b2, bus.unsubscribe impl k cb = .ok b2)) ∧
    (impl k = true → Inv bus → bus.has_subscribed k cb = false →
      bus.unsubscribe impl k cb = .ok bus) := by
  refine ⟨?_, ?_, ?_⟩
  · intro h
    constructor
    · unfold EventBus.subscribe
      simp [h]
    · unfold EventBus.unsubscribe
      simp [h]
  · intro h
    constructor
    · unfold EventBus.subscribe
      rcases hl : dlookup bus.subscribers k with _ | lst
      · simp [h, hl]
      · by_cases hc : cb ∈ lst <;> simp [h, hl, hc]
    · unfold EventBus.unsubscribe
      rcases hl : dlookup bus.subscribers k with _ | lst
      · simp [h, hl]
      · simp [h, hl]
        split <;> split <;> simp
  · intro h hinv hns
    unfold EventBus.unsubscribe
    rcases hl : dlookup bus.subscribers k with _ | lst
    · simp [h, hl]
    · have hcb : cb ∉ lst := by
        unfold EventBus.has_subscribed at hns
        rw [hl] at hns
        simpa using hns
      have hmem := dlookup_mem bus.subscribers k lst hl
      have hne : lst ≠ [] := (hinv.2 (k, lst) hmem).2
      have hlen : ¬ lst.length = 0 := by
        intro hz
        exact hne (List.length_eq_zero.mp hz)
      simp [h, hl, hcb, hlen, dset_eq_self bus.subscribers k lst hl]

/-- Closed instance of C4: unsubscribing a non-registered pair (class 3,
callback 9) on a populated bus whose class passes the contract returns the
state unchanged. -/
theorem subscription_contract_errors_witness :
    (EventBus.mk [(1, [2])] []).unsubscribe (fun _ => true) 3 9 =
      .ok (EventBus.mk [(1, [2])] []) :=
  (subscription_contract_errors (fun _ => true)
    (EventBus.mk [(1, [2])] []) 3 9).2.2 rfl (by decide) (by decide)

/-- Claim C6: for a class passing the contract, `subscribe` makes
`has_subscribed` answer `true`, and subscribing the same pair a second time
is idempotent, leaving exactly one registration of the callback for that
class. -/
theorem subscribe_idempotent_registration (impl : PyClass → Bool)
    (bus : EventBus) (k : PyClass) (cb : Handler)
    (h : impl k = true) (hinv : Inv bus) :
    ∃ bus', bus.subscribe impl k cb = .ok bus' ∧
      bus'.has_subscribed k cb = true ∧
      bus'.subscribe impl k cb = .ok bus' ∧
      (bus'.handlersFor k).count cb = 1 := by
  rcases hl : dlookup bus.subscribers k with _ | lst
  · refine ⟨⟨bus.subscribers ++ [(k, [cb])], bus.followers⟩, ?_, ?_, ?_, ?_⟩
    · unfold EventBus.subscribe
      simp [h, hl]
    · have hl2 : dlookup (bus.subscribers ++ [(k, [cb])]) k = some [cb] := by
        rw [dlookup_append _ _ _ hl]
        simp [dlookup]
      unfold EventBus.has_subscribed
      simp [hl2]
    · have hl2 : dlookup (bus.subscribers ++ [(k, [cb])]) k = some [cb] := by
        rw [dlookup_append _ _ _ hl]
        simp [dlookup]
      unfold EventBus.subscribe
      simp [h, hl2]
    · have hl2 : dlookup (bus.subscribers ++ [(k, [cb])]) k = some [cb] := by
        rw [dlookup_append _ _ _ hl]
        simp [dlookup]
      unfold EventBus.handlersFor
      simp [hl2]
  · by_cases hc : cb ∈ lst
    · refine ⟨bus, ?_, ?_, ?_, ?_⟩
      · unfold EventBus.subscribe
        simp [h, hl, hc]
      · unfold EventBus.has_subscribed
        simp [hl, hc]
      · unfold EventBus.subscribe
        simp [h, hl, hc]
      · have hmem := dlookup_mem bus.subscribers k lst hl
        have hnd : lst.Nodup := (hinv.2 (k, lst) hmem).1
        unfold EventBus.handlersFor
        rw [hl]
        exact List.count_eq_one_of_mem hnd hc
    · have hl2 : dlookup (dset bus.subscribers k (lst ++ [cb])) k =
          some (lst ++ [cb]) := dlookup_dset_self bus.subscribers k _
      refine ⟨⟨dset bus.subscribers k (lst ++ [cb]), bus.followers⟩,
        ?_, ?_, ?_, ?_⟩
      · unfold EventBus.subscribe
        simp [h, hl, hc]
      · unfold EventBus.has_subscribed
        simp [hl2]
      · unfold EventBus.subscribe
        simp [h, hl2]
      · unfold EventBus.handlersFor
        rw [hl2]
        simp [List.count_append, List.count_eq_zero_of_not_mem hc]

/-- A state with the same dispatch table as an invariant-satisfying state
satisfies the invariant: `Inv` constrains only `subscribers`. -/
theorem inv_of_subscribers_eq (bus bus' : EventBus)
    (h : bus'.subscribers = bus.subscribers) (hinv : Inv bus) : Inv bus' := by
  unfold Inv at hinv ⊢
  rw [h]
  exact hinv

/-- Claim C5: every hub operation, started from a state satisfying the
dispatch-table invariant (each callback at most once per class, a class is a
key exactly while its callback list is non-empty, dict keys distinct),
yields a state satisfying it again. -/
theorem operations_preserve_inv (impl : PyClass → Bool) (bus : EventBus)
    (k : PyClass) (cb : Handler) (b : BusId) (ev : Event) (hinv : Inv bus) :
    (∀ bus', bus.subscribe impl k cb = .ok bus' → Inv bus') ∧
    (∀ bus', bus.unsubscribe impl k cb = .ok bus' → Inv bus') ∧
    Inv bus.unsubscribe_all ∧
    Inv (bus.connect b) ∧
    (∀ bus', bus.disconnect b = .ok bus' → Inv bus') ∧
    Inv bus.disconnect_all ∧
    Inv bus.clear ∧
    (∀ bus' acts, bus.publish ev = .ok (bus', acts) → Inv bus') := by
  refine ⟨?_, ?_, ?_, ?_, ?_, ?_, ?_, ?_⟩
  · -- subscribe
    intro bus' hok
    unfold EventBus.subscribe at hok
    cases himpl : impl k with
    | false => simp [himpl] at hok
    | true =>
        rcases hl : dlookup bus.subscribers k with _ | lst
        · simp [himpl, hl] at hok
          subst hok
          constructor
          · have hk : k ∉ bus.subscribers.map Prod.fst :=
              (dlookup_eq_none _ _).mp hl
            simp [List.nodup_append, hinv.1, hk]
          · intro p hp
            rcases List.mem_append.mp hp with hp1 | hp1
            · exact hinv.2 p hp1
            · simp at hp1
              subst hp1
              simp
        · by_cases hc : cb ∈ lst
          · simp [himpl, hl, hc] at hok
            subst hok
            exact hinv
          · simp [himpl, hl, hc] at hok
            subst hok
            have hsome : (dlookup bus.subscribers k).isSome := by
              rw [hl]
              rfl
            constructor
            · show ((dset bus.subscribers k (lst ++ [cb])).map Prod.fst).Nodup
              rw [map_fst_dset bus.subscribers k _ hsome]
              exact hinv.1
            · intro p hp
              rcases mem_dset _ _ _ p hp with heq | hmem
              · subst heq
                have hnd : lst.Nodup :=
                  (hinv.2 (k, lst) (dlookup_mem bus.subscribers k lst hl)).1
                constructor
                · simp [List.nodup_append, hnd, hc]
                · simp
              · exact hinv.2 p hmem
  · -- unsubscribe
    intro bus' hok
    unfold EventBus.unsubscribe at hok
    cases himpl : impl k with
    | false => simp [himpl] at hok
    | true =>
        rcases hl : dlookup bus.subscribers k with _ | lst
        · simp [himpl, hl] at hok
          subst hok
          exact hinv
        · have hsome : (dlookup bus.subscribers k).isSome := by
            rw [hl]
            rfl
          have hnd : lst.Nodup :=
            (hinv.2 (k, lst) (dlookup_mem bus.subscribers k lst hl)).1
          simp only [himpl, hl, Bool.not_true, ite_false, not_false_eq_true,
            ite_true] at hok
          set lst' : List Handler := if cb ∈ lst then lst.erase cb else lst
            with hlst'
          have hnd' : lst'.Nodup := by
            rw [hlst']
            split
            · exact List.Nodup.erase cb hnd
            · exact hnd
          by_cases hlen : lst'.length = 0
          · rw [if_pos hlen] at hok
            injection hok with hok'
            subst hok'
            constructor
            · show (((ddel (dset bus.subscribers k lst') k).map Prod.fst)).Nodup
              exact List.Nodup.sublist
                (map_fst_ddel_sublist (dset bus.subscribers k lst') k)
                (by rw [map_fst_dset bus.subscribers k _ hsome]; exact hinv.1)
            · intro p hp
              obtain ⟨hp1, hp2⟩ := (mem_ddel _ _ p).mp hp
              rcases mem_dset _ _ _ p hp1 with heq | hmem
              · subst heq
                exact absurd rfl hp2
              · exact hinv.2 p hmem
          · rw [if_neg hlen] at hok
            injection hok with hok'
            subst hok'
            constructor
            · show ((dset bus.subscribers k lst').map Prod.fst).Nodup
              rw [map_fst_dset bus.subscribers k _ hsome]
              exact hinv.1
            · intro p hp
              rcases mem_dset _ _ _ p hp with heq | hmem
              · subst heq
                refine ⟨hnd', ?_⟩
                intro hnil
                exact hlen (by rw [show lst' = [] from hnil]; rfl)
              · exact hinv.2 p hmem
  · -- unsubscribe_all
    unfold Inv EventBus.unsubscribe_all
    simp
  · -- connect
    exact inv_of_subscribers_eq bus (bus.connect b) rfl hinv
  · -- disconnect
    intro bus' hok
    unfold EventBus.disconnect at hok
    by_cases hb : b ∈ bus.followers
    · rw [if_pos hb] at hok
      injection hok with hok'
      subst hok'
      exact inv_of_subscribers_eq bus _ rfl hinv
    · rw [if_neg hb] at hok
      exact Except.noConfusion hok
  · -- disconnect_all
    exact inv_of_subscribers_eq bus bus.disconnect_all rfl hinv
  · -- clear
    unfold Inv EventBus.clear EventBus.unsubscribe_all EventBus.disconnect_all
    simp
  · -- publish
    intro bus' acts hok
    cases hp : ev.providesIEvent with
    | false =>
        rw [publish_invalid_eq bus ev hp] at hok
        exact Except.noConfusion hok
    | true =>
        rw [publish_ok_eq bus ev hp] at hok
        injection hok with hpair
        injection hpair with h1 h2
        subst h1
        exact hinv

/-- Closed instance of C5: all eight operations preserve the invariant from
a populated state satisfying it. -/
theorem operations_preserve_inv_witness :
    Inv ((EventBus.mk [(5, [7])] [3]).connect 4) :=
  (operations_preserve_inv (fun _ => true) (EventBus.mk [(5, [7])] [3])
    0 1 4 ⟨5, true⟩ (by decide)).2.2.2.1

/-- Closed instance of C6: subscribing callback 1 to class 0 on a fresh
bus. -/
theorem subscribe_idempotent_registration_witness :
    ∃ bus', EventBus.init.subscribe (fun _ => true) 0 1 = .ok bus' ∧
      bus'.has_subscribed 0 1 = true ∧
      bus'.subscribe (fun _ => true) 0 1 = .ok bus' ∧
      (bus'.handlersFor 0).count 1 = 1 :=
  subscribe_idempotent_registration (fun _ => true) EventBus.init 0 1 rfl
    (by decide)

/-- Claim C8: a notification built by `BaseEvent.__init__` from the
mandatory origin reference (the `source` parameter and attribute, which the
spec calls `origin`) plus an open set of named extra values exposes `source`
as a readable attribute holding that reference, and exposes each extra value
as a readable attribute under the name it was supplied with.  The keyword
names are dict keys, hence distinct; and by Python's calling convention a
keyword argument cannot reuse the `source` parameter name, hence the
no-collision hypothesis. -/
theorem baseEvent_exposes_fields (src : Value)
    (kwargs : List (String × Value))
    (hnd : (kwargs.map Prod.fst).Nodup)
    (hs : "source" ∉ kwargs.map Prod.fst) :
    dlookup (mkBaseEvent src kwargs) "source" = some src ∧
    ∀ name v, (name, v) ∈ kwargs →
      dlookup (mkBaseEvent src kwargs) name = some v := by
  constructor
  · unfold mkBaseEvent
    rw [dlookup_foldl_dset_not_mem kwargs _ _ hs]
    simp [dlookup]
  · intro name v hmem
    unfold mkBaseEvent
    exact dlookup_foldl_dset_mem kwargs _ name v hnd hmem

/-- Closed instance of C8: the doctest example
`BaseEvent(__name__, parm1=1, parm2=2)`. -/
theorem baseEvent_exposes_fields_witness :
    dlookup (mkBaseEvent 9 [("parm1", 1), ("parm2", 2)]) "source" = some 9 ∧
    dlookup (mkBaseEvent 9 [("parm1", 1), ("parm2", 2)]) "parm1" = some 1 :=
  ⟨(baseEvent_exposes_fields 9 [("parm1", 1), ("parm2", 2)]
      (by decide) (by decide)).1,
   (baseEvent_exposes_fields 9 [("parm1", 1), ("parm2", 2)]
      (by decide) (by decide)).2 "parm1" 1 (by decide)⟩

/-- A deleted key is no key of the remaining dict. -/
theorem not_mem_map_fst_ddel {α β : Type} [DecidableEq α]
    (d : List (α × β)) (k : α) : k ∉ (ddel d k).map Prod.fst := by
  intro hmem
  rcases List.mem_map.mp hmem with ⟨p, hp, hpk⟩
  exact ((mem_ddel d k p).mp hp).2 hpk

/-- Message of the `TypeError` CPython raises when a keyword repeats a
parameter already bound positionally. -/
def multipleValuesMsg : String :=
  "TypeError: got multiple values for keyword argument source"

/-- Message of the `TypeError` CPython raises when the mandatory `source`
parameter is not supplied. -/
def missingSourceMsg : String :=
  "TypeError: not enough arguments"

/-- Message of the `TypeError` CPython raises on surplus positional
arguments, which no parameter of the signature can absorb. -/
def tooManyArgsMsg : String :=
  "TypeError: too many positional arguments"

/-- CPython argument binding for a constructor call `BaseEvent(*args,
**kwargs)` against the signature `def __init__(self, source, **kwargs)`
(`src/spark/event.py` line 58), with `self` already bound.  A keyword named
`source` always binds the parameter `source`, never the body's kwargs dict:
combined with a positional value it raises a `TypeError`, and without one
it supplies the parameter, the remaining keywords forming the dict the body
receives.  On successful binding the body runs and yields the instance's
attribute dict. -/
def callBaseEvent (args : List Value) (kwargs : List (String × Value)) :
    Except String (List (String × Value)) :=
  match args with
  | [] =>
      match dlookup kwargs "source" with
      | some v => .ok (mkBaseEvent v (ddel kwargs "source"))
      | none => .error missingSourceMsg
  | [a] =>
      if "source" ∈ kwargs.map Prod.fst then .error multipleValuesMsg
      else .ok (mkBaseEvent a kwargs)
  | _ => .error tooManyArgsMsg

/-- Counterexample to claim C10 as stated: constructing with the positional
origin 9 and the extra named value 4 under the origin attribute's own name
`source` does not overwrite anything — CPython's binding raises a
`TypeError` and no instance is produced at all. -/
theorem kwargs_shadow_source_counterexample :
    callBaseEvent [9] [("source", 4)] = .error multipleValuesMsg ∧
    ∀ attrs, callBaseEvent [9] [("source", 4)] ≠ .ok attrs := by
  have herr : callBaseEvent [9] [("source", 4)] = .error multipleValuesMsg :=
    rfl
  refine ⟨herr, ?_⟩
  intro attrs hc
  rw [herr] at hc
  exact Except.noConfusion hc

/-- Claim C10 as amended: no construction can pass an extra named value
under the mandatory origin attribute's name.  A `source` keyword binds the
`source` parameter itself: together with a positional origin the call
raises a `TypeError`, and on its own it supplies the origin, the body
receiving the remaining keywords.  So in every successful construction the
instance's `source` attribute holds exactly the bound origin value — the
body's `setattr` loop, although it runs after `self.source = source`, is
never given a `source` key to overwrite it with. -/
theorem source_keyword_never_overwrites (src v : Value)
    (kwargs : List (String × Value)) :
    ("source" ∈ kwargs.map Prod.fst →
      callBaseEvent [src] kwargs = .error multipleValuesMsg) ∧
    ("source" ∉ kwargs.map Prod.fst →
      callBaseEvent [src] kwargs = .ok (mkBaseEvent src kwargs) ∧
      dlookup (mkBaseEvent src kwargs) "source" = some src) ∧
    (dlookup kwargs "source" = some v →
      callBaseEvent [] kwargs = .ok (mkBaseEvent v (ddel kwargs "source")) ∧
      dlookup (mkBaseEvent v (ddel kwargs "source")) "source" = some v) := by
  refine ⟨?_, ?_, ?_⟩
  · intro h
    unfold callBaseEvent
    simp [h]
  · intro h
    constructor
    · unfold callBaseEvent
      simp [h]
    · unfold mkBaseEvent
      rw [dlookup_foldl_dset_not_mem kwargs _ _ h]
      simp [dlookup]
  · intro h
    constructor
    · unfold callBaseEvent
      simp [h]
    · unfold mkBaseEvent
      rw [dlookup_foldl_dset_not_mem (ddel kwargs "source") _ _
        (not_mem_map_fst_ddel kwargs "source")]
      simp [dlookup]

/-- Closed instance of the amended C10: a positional origin 9 with an
unrelated keyword constructs an instance whose `source` attribute is 9, and
a keyword-only call binds the `source` keyword as the origin itself. -/
theorem source_keyword_never_overwrites_witness :
    (callBaseEvent [9] [("a", 1)] = .ok (mkBaseEvent 9 [("a", 1)]) ∧
      dlookup (mkBaseEvent 9 [("a", 1)]) "source" = some 9) ∧
    (callBaseEvent [] [("source", 4)] =
        .ok (mkBaseEvent 4 (ddel [("source", 4)] "source")) ∧
      dlookup (mkBaseEvent 4 (ddel [("source", 4)] "source")) "source" =
        some 4) :=
  ⟨(source_keyword_never_overwrites 9 0 [("a", 1)]).2.1 (by decide),
   (source_keyword_never_overwrites 9 4 [("source", 4)]).2.2 (by decide)⟩

end Spark
